import Mathlib

/-!
Verification of the transcript codec / context-assembly core of
`claudmunity-notes` (`src/app.py`, a Streamlit application).

Python strings are modelled as `List Char`, with `str.strip()`,
`str.split('\n')`, `str.startswith` and slicing translated into
executable Lean functions.  The components embedded from the source:

* `conversation_history` — the encoding loop of the
  "Load Data & Generate Samples" handler (app.py lines 199-211);
* `processLine` / `sample_notes` — the Sample Notes decoding/pairing
  loop (app.py lines 297-325);
* `api_messages` / `call_claude_api` — message assembly and error
  handling of `call_claude_api` (app.py lines 58-94), with the external
  `client.messages.create` call abstracted as a `send` function;
* `chat_submit` — the chat submit handler (app.py lines 272-284);
* `load_data_valid` / `select_rows` — the eligibility filter of
  `load_data` (lines 116-121) and the row selection of the sampling
  handler (lines 183-196), with `random.sample(range m, k)` abstracted
  by the `SampleDraw` postcondition.
-/

namespace ClaudmunityNotes

/-- Python strings, modelled as lists of characters. -/
abbrev Str := List Char

/-- Coerce a Lean string literal to the `Str` model. -/
def str (s : String) : Str := s.data

/-- Characters removed by Python `str.strip()` (ASCII whitespace). -/
def pySpace (c : Char) : Bool :=
  c = ' ' || c = '\t' || c = '\n' || c = '\r' || c = '\x0b' || c = '\x0c'

/-- Python `s.strip()`: drop leading and trailing whitespace. -/
def pyStrip (s : Str) : Str :=
  ((s.dropWhile pySpace).reverse.dropWhile pySpace).reverse

/-- Python `s.split(c)` for a one-character separator: the list of
maximal separator-free segments; `"".split(c) = [""]`, and a trailing
separator yields a trailing empty segment. -/
def splitOnChar (c : Char) : Str → List Str
  | [] => [[]]
  | x :: xs =>
    if x = c then [] :: splitOnChar c xs
    else
      match splitOnChar c xs with
      | [] => [[x]]
      | l :: ls => (x :: l) :: ls

/-- The literal `"User: "` role marker. -/
def userTag : Str := str "User: "

/-- The literal `"Assistant: "` role marker. -/
def asstTag : Str := str "Assistant: "

/-- The separator line `'-' * 80` (app.py line 211). -/
def sepLine : Str := List.replicate 80 '-'

/-- One encoded exchange:
`f"User: {tweet}\nAssistant: {summary}\n{'-' * 80}\n"` (app.py line 211). -/
def chunk (tweet summary : Str) : Str :=
  userTag ++ tweet ++ ['\n'] ++ asstTag ++ summary ++ ['\n'] ++ sepLine ++ ['\n']

/-- One iteration of the encoding loop (app.py lines 202-211): strip both
fields, skip the row if either is empty, otherwise append its chunk. -/
def encStep (acc : Str) (row : Str × Str) : Str :=
  let tweet := pyStrip row.1
  let summary := pyStrip row.2
  if tweet.isEmpty || summary.isEmpty then acc
  else acc ++ chunk tweet summary

/-- The conversation-history blob built by the
"Load Data & Generate Samples" handler (app.py lines 199-211). -/
def conversation_history (rows : List (Str × Str)) : Str :=
  rows.foldl encStep []

/-- State of the Sample Notes decoding loop (app.py lines 297-325):
the displayed (user, assistant) pairs so far and the two accumulators
`current_user` / `current_assistant`. -/
structure NotesState where
  out : List (Str × Str)
  cu : Str
  ca : Str
deriving DecidableEq, Repr

/-- One iteration of the Sample Notes decoding loop (app.py lines
302-319): a `"User: "` line flushes a completed exchange and restarts
the user accumulator, an `"Assistant: "` line overwrites the assistant
accumulator, a separator line flushes a completed exchange, and any
other line is ignored. -/
def processLine (st : NotesState) (line : Str) : NotesState :=
  if userTag.isPrefixOf line then
    { out := if st.cu ≠ [] ∧ st.ca ≠ [] then st.out ++ [(st.cu, st.ca)] else st.out,
      cu := line.drop 6, ca := [] }
  else if asstTag.isPrefixOf line then
    { st with ca := line.drop 11 }
  else if sepLine.isPrefixOf line ∧ st.cu ≠ [] ∧ st.ca ≠ [] then
    { out := st.out ++ [(st.cu, st.ca)], cu := [], ca := [] }
  else st

/-- The final state of the Sample Notes decoding loop over
`blob.strip().split('\n')` (app.py lines 297-319). -/
def decodeState (blob : Str) : NotesState :=
  (splitOnChar '\n' (pyStrip blob)).foldl processLine ⟨[], [], []⟩

/-- The (user, assistant) pairs displayed by the Sample Notes tab
(app.py lines 297-325), including the final flush of lines 322-325. -/
def sample_notes (blob : Str) : List (Str × Str) :=
  let st := decodeState blob
  if st.cu ≠ [] ∧ st.ca ≠ [] then st.out ++ [(st.cu, st.ca)] else st.out

/-- Message roles. -/
inductive Role
  | user
  | assistant
deriving DecidableEq, Repr

/-- A role-tagged message. -/
structure Msg where
  role : Role
  content : Str
deriving DecidableEq, Repr

/-- The message list assembled by `call_claude_api` (app.py line 63):
only the current message; the `conversation_history` parameter is
accepted but not used. -/
def api_messages (user_message _history : Str) : List Msg :=
  [⟨Role.user, user_message⟩]

/-- The external `client.messages.create` call, abstracted: it either
raises (modelled as `Except.error` with the exception text `str(e)`) or
returns the list of content-block texts of the response. -/
abbrev SendFn := List Msg → Except Str (List Str)

/-- `call_claude_api` (app.py lines 58-94): dispatch the assembled
messages; an exception becomes the string `"API request failed: " + str(e)`,
an empty response body becomes `"No response content received."`, and a
non-empty body yields its first content block's text. -/
def call_claude_api (send : SendFn) (user_message history : Str) : Str :=
  match send (api_messages user_message history) with
  | .error e => str "API request failed: " ++ e
  | .ok [] => str "No response content received."
  | .ok (t :: _) => t

/-- The chat submit handler (app.py lines 272-284): on a non-empty
input, append the user turn; if a client is configured, call
`call_claude_api` and append its result as an assistant turn. -/
def chat_submit (client : Option SendFn) (history : Str)
    (log : List Msg) (user_input : Str) : List Msg :=
  if user_input = [] then log
  else
    match client with
    | none => log ++ [⟨Role.user, user_input⟩]
    | some send =>
        log ++ [⟨Role.user, user_input⟩,
                ⟨Role.assistant, call_claude_api send user_input history⟩]

/-- Row eligibility as filtered by `load_data` (app.py lines 116-121):
both fields non-empty after stripping. -/
def eligibleRow (row : Str × Str) : Bool :=
  !(pyStrip row.1).isEmpty && !(pyStrip row.2).isEmpty

/-- `valid_df`: the table restricted to eligible rows (app.py lines 116-121). -/
def load_data_valid (rows : List (Str × Str)) : List (Str × Str) :=
  rows.filter eligibleRow

/-- `valid_df.iloc[random_indices]` (app.py line 196). -/
def select_rows (valid : List (Str × Str)) (idxs : List Nat) : List (Str × Str) :=
  idxs.filterMap (fun i => valid[i]?)

/-- Postcondition of `random.sample(range(m), k)` (app.py line 195):
`k` distinct indices below `m`. -/
def SampleDraw (m k : Nat) (idxs : List Nat) : Prop :=
  idxs.length = k ∧ idxs.Nodup ∧ ∀ i ∈ idxs, i < m

/-- The "Load Data & Generate Samples" handler outcome (app.py lines
183-196): `none` models the `load_data` failure path ("Failed to load
data"); otherwise the sampled rows are selected from the filtered
table.  The handler has no other failure path. -/
def load_and_generate (fetched : Option (List (Str × Str)))
    (idxs : List Nat) : Option (List (Str × Str)) :=
  match fetched with
  | none => none
  | some rows => some (select_rows (load_data_valid rows) idxs)

/-- View a list of decoded (user, assistant) pairs as role-tagged turns. -/
def turnsOfPairs (ps : List (Str × Str)) : List Msg :=
  ps.flatMap (fun p => [⟨Role.user, p.1⟩, ⟨Role.assistant, p.2⟩])

/-- Strict role alternation: no two adjacent roles are equal. -/
def alternates : List Role → Bool
  | [] => true
  | [_] => true
  | a :: b :: rest => if a = b then false else alternates (b :: rest)

/-- The encoding as the specification words it, for comparison with the
source encoder: the "User: " and "Assistant: " lines carry the raw
fields rather than the stripped fields. -/
def encode_as_claimed (rows : List (Str × Str)) : Str :=
  rows.foldl (fun acc row =>
    if (pyStrip row.1).isEmpty || (pyStrip row.2).isEmpty then acc
    else acc ++ (userTag ++ row.1 ++ ['\n'] ++ asstTag ++ row.2 ++ ['\n']
      ++ sepLine ++ ['\n'])) []

/-! ### Step lemmas for the decoding loop -/

lemma userTag_def : userTag = ['U', 's', 'e', 'r', ':', ' '] := rfl

lemma asstTag_def :
    asstTag = ['A', 's', 's', 'i', 's', 't', 'a', 'n', 't', ':', ' '] := rfl

lemma userTag_self_pref (t : Str) : userTag.isPrefixOf (userTag ++ t) = true := by
  simp [userTag_def]

lemma asstTag_self_pref (s : Str) : asstTag.isPrefixOf (asstTag ++ s) = true := by
  simp [asstTag_def]

lemma userTag_not_pref_asst (s : Str) :
    userTag.isPrefixOf (asstTag ++ s) = false := by
  simp [userTag_def, asstTag_def, List.isPrefixOf_cons₂]

lemma processLine_user (st : NotesState) (t : Str) :
    processLine st (userTag ++ t) =
      ⟨if st.cu ≠ [] ∧ st.ca ≠ [] then st.out ++ [(st.cu, st.ca)] else st.out,
        t, []⟩ := by
  have hd : (userTag ++ t).drop 6 = t := rfl
  simp [processLine, userTag_self_pref, hd]

lemma processLine_user_noca (out : List (Str × Str)) (u t : Str) :
    processLine ⟨out, u, []⟩ (userTag ++ t) = ⟨out, t, []⟩ := by
  rw [processLine_user]
  simp

lemma processLine_asst (st : NotesState) (s : Str) :
    processLine st (asstTag ++ s) = { st with ca := s } := by
  have hd : (asstTag ++ s).drop 11 = s := rfl
  simp [processLine, userTag_not_pref_asst, asstTag_self_pref, hd]

lemma processLine_asst_mk (out : List (Str × Str)) (u ca0 s : Str) :
    processLine ⟨out, u, ca0⟩ (asstTag ++ s) = ⟨out, u, s⟩ := by
  rw [processLine_asst]

lemma processLine_sep_flush (out : List (Str × Str)) (t s : Str)
    (ht : t ≠ []) (hs : s ≠ []) :
    processLine ⟨out, t, s⟩ sepLine = ⟨out ++ [(t, s)], [], []⟩ := by
  have h1 : userTag.isPrefixOf sepLine = false := by decide
  have h2 : asstTag.isPrefixOf sepLine = false := by decide
  have h3 : sepLine.isPrefixOf sepLine = true := by decide
  simp [processLine, h1, h2, h3, ht, hs]

/-! ### Structure of the encoded blob -/

lemma splitOnChar_ne_nil (c : Char) (s : Str) : splitOnChar c s ≠ [] := by
  induction s with
  | nil => simp [splitOnChar]
  | cons x xs ih =>
      by_cases h : x = c
      · simp [splitOnChar, h]
      · simp only [splitOnChar, if_neg h]
        cases hs : splitOnChar c xs with
        | nil => simp
        | cons l ls => simp

lemma splitOnChar_append (c : Char) (a b : Str) (h : c ∉ a) :
    splitOnChar c (a ++ c :: b) = a :: splitOnChar c b := by
  induction a with
  | nil => simp [splitOnChar]
  | cons x xs ih =>
      have hx : ¬ x = c := fun he => h (by simp [he])
      have hrec := ih (fun hm => h (List.mem_cons_of_mem x hm))
      simp only [List.cons_append, splitOnChar, if_neg hx, List.append_eq, hrec]

lemma splitOnChar_append_last (c : Char) (a : Str) :
    splitOnChar c (a ++ [c]) = splitOnChar c a ++ [[]] := by
  induction a with
  | nil => simp [splitOnChar]
  | cons x xs ih =>
      by_cases h : x = c
      · simp [List.cons_append, splitOnChar, h, ih]
      · simp only [List.cons_append, splitOnChar, if_neg h, List.append_eq, ih]
        cases hs : splitOnChar c xs with
        | nil => exact absurd hs (splitOnChar_ne_nil c xs)
        | cons l ls => simp

lemma splitOnChar_chunks (f g : Str × Str → Str) :
    ∀ rows : List (Str × Str), (∀ r ∈ rows, '\n' ∉ f r ∧ '\n' ∉ g r) →
      splitOnChar '\n' (rows.flatMap (fun r => chunk (f r) (g r))) =
        rows.flatMap (fun r => [userTag ++ f r, asstTag ++ g r, sepLine]) ++ [[]] := by
  intro rows
  induction rows with
  | nil => intro _; simp [splitOnChar]
  | cons r rows ih =>
      intro h
      have h1 : '\n' ∉ userTag ++ f r := by
        intro hm
        rcases List.mem_append.1 hm with hm' | hm'
        · exact absurd hm' (by decide)
        · exact (h r (List.mem_cons_self r rows)).1 hm'
      have h2 : '\n' ∉ asstTag ++ g r := by
        intro hm
        rcases List.mem_append.1 hm with hm' | hm'
        · exact absurd hm' (by decide)
        · exact (h r (List.mem_cons_self r rows)).2 hm'
      have h3 : '\n' ∉ sepLine := by decide
      rw [List.flatMap_cons]
      have hshape : chunk (f r) (g r) ++ rows.flatMap (fun p => chunk (f p) (g p)) =
          (userTag ++ f r) ++ '\n' :: ((asstTag ++ g r) ++ '\n' ::
            (sepLine ++ '\n' :: rows.flatMap (fun p => chunk (f p) (g p)))) := by
        simp [chunk, List.append_assoc]
      rw [hshape, splitOnChar_append _ _ _ h1, splitOnChar_append _ _ _ h2,
        splitOnChar_append _ _ _ h3,
        ih (fun p hp => h p (List.mem_cons_of_mem _ hp))]
      simp

lemma fold_triples :
    ∀ rows out : List (Str × Str), (∀ r ∈ rows, r.1 ≠ [] ∧ r.2 ≠ []) →
      (rows.flatMap (fun r => [userTag ++ r.1, asstTag ++ r.2, sepLine])).foldl
          processLine ⟨out, [], []⟩ = ⟨out ++ rows, [], []⟩ := by
  intro rows
  induction rows with
  | nil => intro out _; simp
  | cons r rows ih =>
      intro out h
      rw [List.flatMap_cons]
      simp only [List.cons_append, List.nil_append]
      rw [List.foldl_cons, List.foldl_cons, List.foldl_cons,
        processLine_user_noca, processLine_asst_mk,
        processLine_sep_flush out r.1 r.2 (h r (List.mem_cons_self r rows)).1
          (h r (List.mem_cons_self r rows)).2,
        ih (out ++ [(r.1, r.2)]) (fun p hp => h p (List.mem_cons_of_mem _ hp))]
      simp

lemma encStep_append (acc : Str) (row : Str × Str) :
    encStep acc row = acc ++ encStep [] row := by
  by_cases h1 : (pyStrip row.1).isEmpty <;> by_cases h2 : (pyStrip row.2).isEmpty <;>
    simp [encStep, h1, h2]

lemma foldl_encStep (rows : List (Str × Str)) :
    ∀ acc, rows.foldl encStep acc = acc ++ rows.foldl encStep [] := by
  induction rows with
  | nil => intro acc; simp
  | cons r rows ih =>
      intro acc
      rw [List.foldl_cons, List.foldl_cons, ih (encStep acc r), ih (encStep [] r),
        encStep_append acc r]
      simp [List.append_assoc]

lemma conversation_history_eq (rows : List (Str × Str)) :
    conversation_history rows =
      (rows.filter eligibleRow).flatMap
        (fun r => chunk (pyStrip r.1) (pyStrip r.2)) := by
  induction rows with
  | nil => rfl
  | cons r rows ih =>
      simp only [conversation_history] at ih ⊢
      rw [List.foldl_cons, foldl_encStep, ih, List.filter_cons]
      by_cases h1 : (pyStrip r.1).isEmpty <;> by_cases h2 : (pyStrip r.2).isEmpty <;>
        simp [encStep, eligibleRow, h1, h2]

lemma chunk_shape (t s : Str) : ∃ mid : Str, chunk t s = 'U' :: (mid ++ ['-', '\n']) := by
  refine ⟨['s', 'e', 'r', ':', ' '] ++ t ++ ['\n'] ++ asstTag ++ s ++ ['\n']
    ++ List.replicate 79 '-', ?_⟩
  have hsep : sepLine = List.replicate 79 '-' ++ ['-'] := by decide
  simp [chunk, userTag_def, hsep, List.append_assoc]

lemma blob_shape (f g : Str × Str → Str) (r : Str × Str) (rows : List (Str × Str)) :
    ∃ mid : Str, (r :: rows).flatMap (fun p => chunk (f p) (g p)) =
      'U' :: (mid ++ ['-', '\n']) := by
  induction rows generalizing r with
  | nil =>
      obtain ⟨mid, hm⟩ := chunk_shape (f r) (g r)
      exact ⟨mid, by simp [hm]⟩
  | cons r' rows ih =>
      obtain ⟨mid', hm'⟩ := ih r'
      obtain ⟨mid, hm⟩ := chunk_shape (f r) (g r)
      refine ⟨mid ++ ['-', '\n'] ++ 'U' :: mid', ?_⟩
      rw [List.flatMap_cons, hm', hm]
      simp [List.append_assoc]

lemma pyStrip_sandwich (a : Char) (mid : Str) (b : Char)
    (ha : pySpace a = false) (hb : pySpace b = false) :
    pyStrip (a :: (mid ++ [b, '\n'])) = a :: (mid ++ [b]) := by
  have hn : pySpace '\n' = true := by decide
  have h1 : (a :: (mid ++ [b, '\n'])).dropWhile pySpace = a :: (mid ++ [b, '\n'])
    := by rw [List.dropWhile_cons]; simp [ha]
  have h2 : (a :: (mid ++ [b, '\n'])).reverse = '\n' :: b :: (mid.reverse ++ [a])
    := by simp
  have h3 : ('\n' :: b :: (mid.reverse ++ [a])).dropWhile pySpace
      = b :: (mid.reverse ++ [a]) := by
    rw [List.dropWhile_cons, List.dropWhile_cons]
    simp [hn, hb]
  simp only [pyStrip, h1, h2, h3]
  simp

lemma pyStrip_blob (f g : Str × Str → Str) (r : Str × Str) (rows : List (Str × Str)) :
    pyStrip ((r :: rows).flatMap (fun p => chunk (f p) (g p))) ++ ['\n'] =
      (r :: rows).flatMap (fun p => chunk (f p) (g p)) := by
  obtain ⟨mid, hm⟩ := blob_shape f g r rows
  rw [hm, pyStrip_sandwich 'U' mid '-' (by decide) (by decide)]
  simp

lemma sample_notes_encode (rows : List (Str × Str))
    (h : ∀ r ∈ rows, r.1 ≠ [] ∧ r.2 ≠ [] ∧ '\n' ∉ r.1 ∧ '\n' ∉ r.2) :
    sample_notes (rows.flatMap (fun r => chunk r.1 r.2)) = rows := by
  cases rows with
  | nil => rfl
  | cons r rows' =>
      have h2 := splitOnChar_chunks Prod.fst Prod.snd (r :: rows')
        (fun p hp => ⟨(h p hp).2.2.1, (h p hp).2.2.2⟩)
      have h3 := splitOnChar_append_last '\n'
        (pyStrip ((r :: rows').flatMap (fun p => chunk p.1 p.2)))
      rw [pyStrip_blob Prod.fst Prod.snd r rows'] at h3
      rw [h3] at h2
      have hsplit := List.append_cancel_right h2
      simp only [sample_notes, decodeState]
      rw [hsplit, fold_triples (r :: rows') []
        (fun p hp => ⟨(h p hp).1, (h p hp).2.1⟩)]
      simp

lemma flatMap_congr_fn {α β : Type} {f g : α → List β} :
    ∀ l : List α, (∀ a ∈ l, f a = g a) → l.flatMap f = l.flatMap g := by
  intro l
  induction l with
  | nil => intro _; rfl
  | cons a l ih =>
      intro h
      rw [List.flatMap_cons, List.flatMap_cons, h a (List.mem_cons_self a l),
        ih (fun a' ha' => h a' (List.mem_cons_of_mem _ ha'))]

/-! ### C2 — round-trip law of the codec -/

/-- C2 counterexample: the round-trip fails for multi-line content (the
continuation line "y" is silently dropped by the decoder) and for
content with leading/trailing whitespace (the encoder strips it), even
though both pairs have non-empty trimmed fields and contain no
role-prefix lines and no separator line. -/
theorem roundtrip_counterexample :
    sample_notes (conversation_history [(str "x\ny", str "r")])
      = [(str "x", str "r")] ∧
    [(str "x", str "r")] ≠ [(str "x\ny", str "r")] ∧
    sample_notes (conversation_history [(str " A ", str "b")])
      = [(str "A", str "b")] ∧
    [(str "A", str "b")] ≠ [(str " A ", str "b")] := by
  refine ⟨by decide, by decide, by decide, by decide⟩

/-- C2 (amended): decoding the encoding reproduces the sequence exactly
for every sequence of pairs whose fields are non-empty, contain no
newline (single-line content only), and are unchanged by stripping;
multi-line or unstripped fields are not reproduced. -/
theorem decode_encode_roundtrip (rows : List (Str × Str))
    (h : ∀ r ∈ rows, r.1 ≠ [] ∧ r.2 ≠ [] ∧ pyStrip r.1 = r.1 ∧ pyStrip r.2 = r.2 ∧
      '\n' ∉ r.1 ∧ '\n' ∉ r.2) :
    sample_notes (conversation_history rows) = rows := by
  have hfil : rows.filter eligibleRow = rows := by
    rw [List.filter_eq_self]
    intro r hr
    have h1 := (h r hr).1
    have h2 := (h r hr).2.1
    have h3 := (h r hr).2.2.1
    have h4 := (h r hr).2.2.2.1
    simp [eligibleRow, h3, h4, List.isEmpty_iff, h1, h2]
  have henc : conversation_history rows = rows.flatMap (fun r => chunk r.1 r.2) := by
    rw [conversation_history_eq, hfil]
    exact flatMap_congr_fn rows (fun r hr => by
      rw [(h r hr).2.2.1, (h r hr).2.2.2.1])
  rw [henc]
  exact sample_notes_encode rows (fun r hr =>
    ⟨(h r hr).1, (h r hr).2.1, (h r hr).2.2.2.2.1, (h r hr).2.2.2.2.2⟩)

theorem decode_encode_roundtrip_witness :
    sample_notes (conversation_history [(str "A", str "a"), (str "C", str "c")])
      = [(str "A", str "a"), (str "C", str "c")] :=
  decode_encode_roundtrip [(str "A", str "a"), (str "C", str "c")] (by decide)

/-! ### C4 — line structure of the encoding -/

/-- C4 counterexample: the encoder emits the stripped fields, not the
raw fields as the claim states (so `(" A ", "a")` yields the line
"User: A", not "User:  A "), and a pair whose stripped field still
contains a newline produces more than three lines. -/
theorem encode_strip_counterexample :
    conversation_history [(str " A ", str "a")]
      = str "User: A\nAssistant: a\n" ++ sepLine ++ ['\n'] ∧
    encode_as_claimed [(str " A ", str "a")]
      = str "User:  A \nAssistant: a\n" ++ sepLine ++ ['\n'] ∧
    conversation_history [(str " A ", str "a")]
      ≠ encode_as_claimed [(str " A ", str "a")] ∧
    (splitOnChar '\n' (conversation_history [(str "x\ny", str "a")])).length = 5 := by
  refine ⟨by decide, by decide, by decide, by decide⟩

/-- C4 (amended): for every list of pairs whose stripped fields are
newline-free, the encoded blob's lines are, for each pair with non-empty
stripped input and response and in input order, exactly the three lines
"User: " + strip(input), "Assistant: " + strip(response), and the
80-dash separator — each encoded pair terminated by one separator line —
followed by the empty segment after the final newline; pairs with an
empty stripped field are never encoded. -/
theorem encode_lines (rows : List (Str × Str))
    (hnl : ∀ r ∈ rows, '\n' ∉ pyStrip r.1 ∧ '\n' ∉ pyStrip r.2) :
    splitOnChar '\n' (conversation_history rows) =
      (rows.filter eligibleRow).flatMap
        (fun r => [userTag ++ pyStrip r.1, asstTag ++ pyStrip r.2, sepLine])
        ++ [[]] := by
  rw [conversation_history_eq]
  exact splitOnChar_chunks (fun r => pyStrip r.1) (fun r => pyStrip r.2)
    (rows.filter eligibleRow) (fun r hr => hnl r (List.mem_filter.1 hr).1)

theorem encode_lines_witness :
    splitOnChar '\n' (conversation_history [(str "A", str "a"), (str "", str "b")]) =
      (([(str "A", str "a"), (str "", str "b")]).filter eligibleRow).flatMap
        (fun r => [userTag ++ pyStrip r.1, asstTag ++ pyStrip r.2, sepLine])
        ++ [[]] :=
  encode_lines [(str "A", str "a"), (str "", str "b")] (by decide)

/-! ### C1 — assembled message list vs. decoded history -/

/-- C1 counterexample: for the non-empty history blob encoding the single
exchange ("A", "a") and new input "D", the assembled message list is the
singleton `[{user, "D"}]`, not the decoded history turns followed by
`{user, "D"}` (which would have three messages). -/
theorem assembled_history_counterexample :
    api_messages (str "D") (conversation_history [(str "A", str "a")])
      = [⟨Role.user, str "D"⟩] ∧
    turnsOfPairs (sample_notes (conversation_history [(str "A", str "a")]))
        ++ [⟨Role.user, str "D"⟩]
      = [⟨Role.user, str "A"⟩, ⟨Role.assistant, str "a"⟩, ⟨Role.user, str "D"⟩] ∧
    api_messages (str "D") (conversation_history [(str "A", str "a")]) ≠
      turnsOfPairs (sample_notes (conversation_history [(str "A", str "a")]))
        ++ [⟨Role.user, str "D"⟩] := by
  refine ⟨rfl, by decide, by decide⟩

/-- C1 (amended): for every history blob and every new input, the message
list sent to the generation call is exactly `[{role: user, content: newInput}]`;
the history parameter is ignored (app.py lines 61-63). -/
theorem assembled_messages_singleton (history input : Str) :
    api_messages input history = [⟨Role.user, input⟩] ∧
    api_messages input history = api_messages input [] :=
  ⟨rfl, rfl⟩

/-! ### C3 — behaviour of a failed generation call -/

/-- C3 counterexample: when the external call fails with "boom", the
submit handler appends an assistant turn containing
"API request failed: boom" after the user's turn — the failure is
converted into an ordinary reply, not surfaced. -/
theorem submit_failure_counterexample :
    chat_submit (some (fun _ => .error (str "boom"))) (str "") [] (str "x")
      = [⟨Role.user, str "x"⟩, ⟨Role.assistant, str "API request failed: boom"⟩] ∧
    (chat_submit (some (fun _ => .error (str "boom"))) (str "") [] (str "x")).map Msg.role
      = [Role.user, Role.assistant] := by
  refine ⟨by decide, by decide⟩

/-- C3 (amended): for every submission whose external call fails, the
user's turn remains in the log and an assistant turn whose content is
"API request failed: " followed by the cause is appended; the failure is
returned as an ordinary reply string rather than surfaced as an error. -/
theorem submit_failure_appends_error_reply (send : SendFn) (history : Str)
    (log : List Msg) (input e : Str) (hne : input ≠ [])
    (hfail : send (api_messages input history) = .error e) :
    chat_submit (some send) history log input =
      log ++ [⟨Role.user, input⟩,
              ⟨Role.assistant, str "API request failed: " ++ e⟩] := by
  simp [chat_submit, call_claude_api, if_neg hne, hfail]

theorem submit_failure_appends_error_reply_witness :
    chat_submit (some (fun _ => .error (str "boom"))) (str "") [] (str "x") =
      [] ++ [⟨Role.user, str "x"⟩,
             ⟨Role.assistant, str "API request failed: " ++ str "boom"⟩] :=
  submit_failure_appends_error_reply (fun _ => .error (str "boom")) (str "")
    [] (str "x") (str "boom") (by decide) rfl

/-! ### C6 — sampling from a table with zero eligible pairs -/

/-- C6 counterexample: on the table `[(" ", "y")]` with zero eligible
rows, the sampling handler succeeds and returns the empty selection
(`some []`); there is no `EmptyTableError` in the code. -/
theorem sample_empty_table_counterexample :
    load_data_valid [(str " ", str "y")] = [] ∧
    load_and_generate (some [(str " ", str "y")]) [] = some [] ∧
    load_and_generate (some [(str " ", str "y")]) [] ≠ none := by
  refine ⟨by decide, by decide, by simp [load_and_generate]⟩

/-- C6 (amended): for every request with n > 0 against a table containing
zero eligible pairs, sampling does not fail: the effective count clamps
to zero and the handler returns the empty selection. -/
theorem sample_empty_table_returns_empty (rows : List (Str × Str))
    (n : Nat) (idxs : List Nat) (hn : 0 < n)
    (helig : load_data_valid rows = [])
    (hdraw : SampleDraw (load_data_valid rows).length
      (min n (load_data_valid rows).length) idxs) :
    load_and_generate (some rows) idxs = some [] := by
  have hsel : ∀ is' : List Nat, select_rows ([] : List (Str × Str)) is' = [] := by
    intro is'
    induction is' with
    | nil => rfl
    | cons i is' ih => simp [select_rows]
  simp only [load_and_generate, helig, hsel]

theorem sample_empty_table_returns_empty_witness :
    load_and_generate (some [(str " ", str "y")]) [] = some [] :=
  sample_empty_table_returns_empty [(str " ", str "y")] 1 [] (by decide)
    (by decide) ⟨by decide, List.nodup_nil, by simp⟩

/-! ### C7 — malformed transcripts: two user entries in a row -/

/-- C7 counterexample: decoding a blob with two consecutive "User: "
entries silently drops the first one ("Q1") and returns the remaining
pair as a normal value; no error of any kind is produced. -/
theorem decode_malformed_counterexample :
    sample_notes (str "User: Q1\nUser: Q2\nAssistant: A\n" ++ sepLine ++ ['\n'])
      = [(str "Q2", str "A")] := by decide

/-- C7 (amended): the decoding loop never fails on broken alternation —
a second "User: " line arriving while no assistant content is buffered
simply overwrites the pending user content, so the earlier user entry is
silently dropped. -/
theorem decode_second_user_overwrites (out : List (Str × Str))
    (u1 u2 : Str) (rest : List Str) :
    ((userTag ++ u1) :: (userTag ++ u2) :: rest).foldl processLine ⟨out, [], []⟩ =
      ((userTag ++ u2) :: rest).foldl processLine ⟨out, [], []⟩ := by
  rw [List.foldl_cons, List.foldl_cons, List.foldl_cons,
    processLine_user_noca, processLine_user_noca, processLine_user_noca]

/-! ### C8 — trailing unpaired user entry -/

/-- C8: decoding `"User: Q\n"` ends with the unpaired user content "Q"
buffered (no assistant content, no completed pair), and the Sample Notes
display pairing discards it: the displayed pair list is empty and no
failure occurs. -/
theorem trailing_unpaired_user :
    (decodeState (str "User: Q\n")).out = [] ∧
    (decodeState (str "User: Q\n")).cu = str "Q" ∧
    (decodeState (str "User: Q\n")).ca = [] ∧
    sample_notes (str "User: Q\n") = [] := by decide

/-! ### C9 — role alternation of the assembled messages -/

/-- C9: for every well-formed non-empty history blob (one produced by
the encoder from a non-empty row list) and every new input, the roles of
the assembled message sequence strictly alternate and begin and end with
user (the sequence is the single user message, app.py line 63). -/
theorem assembled_roles_alternate (history input : Str)
    (hwf : ∃ rows, rows ≠ [] ∧ history = conversation_history rows)
    (hne : history ≠ []) :
    ((api_messages input history).map Msg.role).head? = some Role.user ∧
    alternates ((api_messages input history).map Msg.role) = true ∧
    ((api_messages input history).map Msg.role).getLast? = some Role.user :=
  ⟨rfl, rfl, rfl⟩

theorem assembled_roles_alternate_witness :
    ((api_messages (str "D") (conversation_history [(str "A", str "a")])).map
        Msg.role).head? = some Role.user ∧
    alternates ((api_messages (str "D")
        (conversation_history [(str "A", str "a")])).map Msg.role) = true ∧
    ((api_messages (str "D") (conversation_history [(str "A", str "a")])).map
        Msg.role).getLast? = some Role.user :=
  assembled_roles_alternate (conversation_history [(str "A", str "a")]) (str "D")
    ⟨[(str "A", str "a")], by decide, rfl⟩ (by decide)

/-! ### C10 — call_claude_api never raises -/

/-- C10: `call_claude_api` never raises: a failing external call is
returned as the ordinary string "API request failed: " plus the
exception text, an empty response body as "No response content
received.", and a non-empty body as its first block's text — always a
plain string of the same shape as a successful reply. -/
theorem call_claude_api_never_raises (send : SendFn) (msg history : Str) :
    (∀ e, send (api_messages msg history) = .error e →
      call_claude_api send msg history = str "API request failed: " ++ e) ∧
    (send (api_messages msg history) = .ok [] →
      call_claude_api send msg history = str "No response content received.") ∧
    (∀ t ts, send (api_messages msg history) = .ok (t :: ts) →
      call_claude_api send msg history = t) := by
  refine ⟨fun e he => ?_, fun h0 => ?_, fun t ts ht => ?_⟩ <;>
    simp_all [call_claude_api]

/-! ### C5 — sampling returns min(n, eligible_count) rows without replacement -/

lemma select_rows_cons (valid : List (Str × Str)) (i : Nat) (idxs : List Nat)
    (h : i < valid.length) :
    select_rows valid (i :: idxs) = valid.get ⟨i, h⟩ :: select_rows valid idxs := by
  simp [select_rows, List.filterMap_cons, List.getElem?_eq_getElem h]

lemma length_select (valid : List (Str × Str)) :
    ∀ idxs : List Nat, (∀ i ∈ idxs, i < valid.length) →
      (select_rows valid idxs).length = idxs.length := by
  intro idxs
  induction idxs with
  | nil => intro _; rfl
  | cons i idxs ih =>
      intro h
      rw [select_rows_cons valid i idxs (h i (List.mem_cons_self i idxs)),
        List.length_cons, List.length_cons,
        ih (fun j hj => h j (List.mem_cons_of_mem _ hj))]

lemma mem_select (valid : List (Str × Str)) (idxs : List Nat) (p : Str × Str)
    (hp : p ∈ select_rows valid idxs) : p ∈ valid := by
  simp only [select_rows] at hp
  rcases List.mem_filterMap.1 hp with ⟨i, _, hi⟩
  exact List.getElem?_mem hi

lemma count_select (valid : List (Str × Str)) (p : Str × Str) (idxs : List Nat) :
    (select_rows valid idxs).count p =
      (idxs.filter (fun i => valid[i]? == some p)).length := by
  induction idxs with
  | nil => rfl
  | cons i idxs ih =>
      simp only [select_rows, List.filterMap_cons] at ih ⊢
      cases hv : valid[i]? with
      | none => simp [List.filter_cons, hv, ih]
      | some q =>
          by_cases hq : q = p
          · subst hq
            simp [List.filter_cons, hv, ih, List.count_cons]
          · simp [List.filter_cons, hv, ih, List.count_cons, hq]

lemma count_eq_filter_range (valid : List (Str × Str)) (p : Str × Str) :
    valid.count p =
      ((List.range valid.length).filter (fun i => valid[i]? == some p)).length := by
  induction valid with
  | nil => rfl
  | cons v vs ih =>
      rw [List.length_cons, List.range_succ_eq_map, List.filter_cons]
      have hfn : (fun i => (v :: vs)[i]? == some p) ∘ Nat.succ
          = (fun i => vs[i]? == some p) := by
        funext i
        simp [Function.comp, List.getElem?_cons_succ]
      have hmap : (List.map Nat.succ (List.range vs.length)).filter
          (fun i => (v :: vs)[i]? == some p) =
          List.map Nat.succ ((List.range vs.length).filter
            (fun i => vs[i]? == some p)) := by
        rw [List.filter_map, hfn]
      by_cases hv : v = p
      · subst hv
        simp [List.count_cons, hmap, ih, Nat.add_comm]
      · simp [List.count_cons, hmap, ih, hv]

lemma count_select_le (valid : List (Str × Str)) (idxs : List Nat)
    (hnd : idxs.Nodup) (hlt : ∀ i ∈ idxs, i < valid.length) (p : Str × Str) :
    (select_rows valid idxs).count p ≤ valid.count p := by
  rw [count_select, count_eq_filter_range]
  have hsub : idxs.filter (fun i => valid[i]? == some p) ⊆
      (List.range valid.length).filter (fun i => valid[i]? == some p) := by
    intro i hi
    rw [List.mem_filter] at hi ⊢
    exact ⟨List.mem_range.2 (hlt i hi.1), hi.2⟩
  exact (List.subperm_of_subset (hnd.filter _) hsub).length_le

/-- C5: for every table and requested count, the sampling handler
selects exactly `min n eligible_count` rows, each from the eligible
subset of the table, and without replacement (no row of the eligible
table is used more often than it occurs there), where the drawn index
list satisfies the `random.sample` postcondition. -/
theorem sample_returns_min (rows : List (Str × Str)) (n : Nat) (idxs : List Nat)
    (hdraw : SampleDraw (load_data_valid rows).length
      (min n (load_data_valid rows).length) idxs) :
    (select_rows (load_data_valid rows) idxs).length
        = min n (load_data_valid rows).length ∧
    (∀ p ∈ select_rows (load_data_valid rows) idxs,
      p ∈ rows ∧ eligibleRow p = true) ∧
    (∀ p, (select_rows (load_data_valid rows) idxs).count p
        ≤ (load_data_valid rows).count p) := by
  obtain ⟨hlen, hnd, hlt⟩ := hdraw
  refine ⟨?_, fun p hp => ?_, fun p => count_select_le _ _ hnd hlt p⟩
  · rw [length_select _ idxs hlt, hlen]
  · have hm := mem_select _ _ _ hp
    simp only [load_data_valid] at hm
    exact (List.mem_filter.1 hm).imp id id

theorem sample_returns_min_witness :
    (select_rows (load_data_valid
        [(str "A", str "a"), (str "", str "b"), (str "C", str "c")]) [1, 0]).length
      = min 2 (load_data_valid
        [(str "A", str "a"), (str "", str "b"), (str "C", str "c")]).length ∧
    (∀ p ∈ select_rows (load_data_valid
        [(str "A", str "a"), (str "", str "b"), (str "C", str "c")]) [1, 0],
      p ∈ [(str "A", str "a"), (str "", str "b"), (str "C", str "c")]
        ∧ eligibleRow p = true) ∧
    (∀ p, (select_rows (load_data_valid
        [(str "A", str "a"), (str "", str "b"), (str "C", str "c")]) [1, 0]).count p
      ≤ (load_data_valid
        [(str "A", str "a"), (str "", str "b"), (str "C", str "c")]).count p) :=
  sample_returns_min [(str "A", str "a"), (str "", str "b"), (str "C", str "c")]
    2 [1, 0] ⟨by decide, by decide, by decide⟩

theorem call_claude_api_never_raises_witness :
    call_claude_api (fun _ => .error (str "boom")) (str "x") []
      = str "API request failed: " ++ str "boom" ∧
    call_claude_api (fun _ => .ok []) (str "x") []
      = str "No response content received." ∧
    call_claude_api (fun _ => .ok [str "reply"]) (str "x") [] = str "reply" :=
  ⟨(call_claude_api_never_raises (fun _ => .error (str "boom")) (str "x") []).1
      (str "boom") rfl,
   (call_claude_api_never_raises (fun _ => .ok []) (str "x") []).2.1 rfl,
   (call_claude_api_never_raises (fun _ => .ok [str "reply"]) (str "x") []).2.2
      (str "reply") [] rfl⟩

end ClaudmunityNotes
